import Mathlib

/-!
Verification development for a small relational storage kernel
(storage engine, schema manager, in-memory primary-key index and an
execution engine providing CRUD plus a nested-loop join).

The Python source is embedded shallowly:

* runtime values (`Value`) form the tagged union Int / Float / String /
  Bool; the Float payload is modelled by a rational number (the finite
  doubles embed into ℚ and no arithmetic is ever performed on them);
* Python `==` on these variants compares Int / Float / Bool numerically
  (`True == 1`, `1.0 == 1`) and strings structurally; this is captured by
  the canonical form `canon` and the boolean equality `pyEq`;
* a Python dict is an insertion-ordered association list with unique
  keys; rows (`Row`) and the per-table index are such lists;
* a raised exception becomes an `Except`/paired result carrying the part
  of the mutable state (the in-memory index) that the exception does not
  roll back; the persisted file content is only replaced by the single
  `write_table` call of each operation, exactly as in the source.
-/

set_option autoImplicit false

namespace RDBMS

/-- Runtime value: a tagged union over Int, Float, String, Bool
(`Value` in the data model).  The Float payload is a rational standing
for a finite double; no arithmetic is ever performed on it. -/
inductive Value where
  | vInt (n : Int)
  | vFloat (q : ℚ)
  | vStr (s : String)
  | vBool (b : Bool)
deriving DecidableEq, Repr

/-- Canonical form of a value under Python `==`: Int, Float and Bool
collapse to one number (`True == 1`, `False == 0`, `1.0 == 1`), strings
stay strings and never equal a number. -/
inductive PyCanon where
  | num (q : ℚ)
  | str (s : String)
deriving DecidableEq, Repr

/-- Canonicalisation of a value for Python equality. -/
def canon : Value → PyCanon
  | .vInt n => .num n
  | .vFloat q => .num q
  | .vBool b => .num (if b then 1 else 0)
  | .vStr s => .str s

/-- Python `==` on runtime values. -/
def pyEq (a b : Value) : Bool := decide (canon a = canon b)

/-- Python `==` where either side may be `None` (absent): `None == None`
is true, `None` never equals a value. -/
def pyEqO : Option Value → Option Value → Bool
  | none, none => true
  | some a, some b => pyEq a b
  | _, _ => false

/-- First-match lookup in an insertion-ordered association list with
string keys — Python `d.get(k)` / `d[k]` on a dict. -/
def lookupStr {α : Type} : List (String × α) → String → Option α
  | [], _ => none
  | p :: l, k => if p.1 = k then some p.2 else lookupStr l k

/-- A row: a Python dict mapping column name to value, i.e. an
insertion-ordered association list (unique keys by dict construction). -/
abbrev Row := List (String × Value)

/-- Python `row[k] = v` on an existing key `k`: replaces the stored
value in place, keeping the key order. -/
def rowSet : Row → String → Value → Row
  | [], _, _ => []
  | p :: r, k, v => (if p.1 = k then (p.1, v) else p) :: rowSet r k v

/-- The update loop of `ExecutionEngine.update_rows`:
`for col, value in updates.items(): if col in row: row[col] = value`.
An updates entry whose key is not a column of the row is skipped. -/
def applyUpdates (row : Row) (updates : List (String × Value)) : Row :=
  updates.foldl (fun r p => if (lookupStr r p.1).isSome then rowSet r p.1 p.2 else r) row

/-- Python `{**l, **r}`: keys of `l` first (value taken from `r` when
`r` also has the key), then the keys only `r` has, in `r`'s order. -/
def rowMerge (l r : Row) : Row :=
  l.map (fun p =>
      match lookupStr r p.1 with
      | some v => (p.1, v)
      | none => p)
    ++ r.filter (fun p => (lookupStr l p.1).isNone)

/-- Declared column data types (`{"Int", "String", "Float", "Bool"}`). -/
inductive DataType where
  | dInt
  | dFloat
  | dStr
  | dBool
deriving DecidableEq, Repr

/-- The per-column type check of `SchemaManager.validate_row`.
`Int` admits exactly the integral non-boolean variant (Python:
`isinstance(v, int) and not isinstance(v, bool)`), `Float` admits the
integral or floating non-boolean variants, `String` admits strings,
`Bool` admits exactly booleans. -/
def typeOk : DataType → Value → Bool
  | .dInt, .vInt _ => true
  | .dFloat, .vInt _ => true
  | .dFloat, .vFloat _ => true
  | .dStr, .vStr _ => true
  | .dBool, .vBool _ => true
  | _, _ => false

/-- A table's declared columns: ordered mapping column name → type. -/
abbrev Columns := List (String × DataType)

/-- Errors raised by the kernel (each `ValueError` / `FileExistsError` /
`KeyError` branch of the source becomes one variant). -/
inductive DbError where
  | missingColumn (c : String)
  | unknownColumn (c : String)
  | typeMismatch (c : String)
  | uniqueness (v : Value)
  | duplicateKey (v : Value)
  | missingKey
  | keyError (c : String)
  | schemaExists (t : String)
  | badPrimaryKey (c : String)
  | badType (c t : String)
  | fileExists (t : String)
  | notFound (t : String)
  | corrupt (t : String)
deriving DecidableEq, Repr

instance {ε α : Type} [DecidableEq ε] [DecidableEq α] : DecidableEq (Except ε α) :=
  fun a b =>
    match a, b with
    | .error e1, .error e2 =>
      if h : e1 = e2 then .isTrue (by rw [h])
      else .isFalse (fun hc => h (by injection hc))
    | .ok v1, .ok v2 =>
      if h : v1 = v2 then .isTrue (by rw [h])
      else .isFalse (fun hc => h (by injection hc))
    | .error _, .ok _ => .isFalse (fun hc => Except.noConfusion hc)
    | .ok _, .error _ => .isFalse (fun hc => Except.noConfusion hc)

/-- Whether the value a row holds for a declared column (when present)
passes the type check; the missing case is handled earlier. -/
def colOk (row : Row) (c : String × DataType) : Bool :=
  match lookupStr row c.1 with
  | some v => typeOk c.2 v
  | none => true

/-- `SchemaManager.validate_row`: first missing-column check (in
declaration order), then unknown-column check (in row order), then the
per-column type checks (in declaration order); the first failure is
raised. -/
def validate_row (cols : Columns) (row : Row) : Except DbError Unit :=
  match cols.find? (fun c => (lookupStr row c.1).isNone) with
  | some c => .error (.missingColumn c.1)
  | none =>
    match row.find? (fun p => (lookupStr cols p.1).isNone) with
    | some p => .error (.unknownColumn p.1)
    | none =>
      match cols.find? (fun c => ! colOk row c) with
      | some c => .error (.typeMismatch c.1)
      | none => .ok ()

/-- One table's in-memory index: a Python dict keyed by primary-key
value (key equality is Python `==`), mapping to the row holding that
key.  An absent index behaves exactly like the empty one under every
operation below, so both are the empty list. -/
abbrev Idx := List (Value × Row)

/-- `IndexEngine.lookup`: the row indexed under a key equal (Python
`==`) to the probe, or nothing. -/
def index_lookup : Idx → Value → Option Row
  | [], _ => none
  | p :: idx, v => if pyEq p.1 v then some p.2 else index_lookup idx v

/-- `IndexEngine.delete`: `dict.pop(key, None)` — removes the entry
whose key equals the probe, no-op when absent. -/
def index_delete (idx : Idx) (v : Value) : Idx :=
  idx.filter (fun p => ! pyEq p.1 v)

/-- `IndexEngine.insert`: fails `DuplicateKey` when the key is already
indexed, otherwise adds the entry. -/
def index_insert (idx : Idx) (v : Value) (row : Row) : Except DbError Idx :=
  if (index_lookup idx v).isSome then .error (.duplicateKey v)
  else .ok (idx ++ [(v, row)])

/-- The scan loop of `IndexEngine.build_index`, carrying the index
built so far: a row whose primary-key value is absent raises
`MissingKey`, a key already seen raises `DuplicateKey`. -/
def build_index_go : List Row → String → Idx → Except DbError Idx
  | [], _, idx => .ok idx
  | row :: rest, pkc, idx =>
    match lookupStr row pkc with
    | none => .error .missingKey
    | some v =>
      if (index_lookup idx v).isSome then .error (.duplicateKey v)
      else build_index_go rest pkc (idx ++ [(v, row)])

/-- `IndexEngine.build_index`: builds a fresh index from a row list
(the table's index is only replaced on success, since the source
assigns `self.indexes[table_name]` after the loop). -/
def build_index (rows : List Row) (pkc : String) : Except DbError Idx :=
  build_index_go rows pkc []

/-- The state of one existing table with a fixed schema: `store` is the
decoded content of its persisted storage file (replaced only by
`write_table`), `index` its in-memory index. -/
structure TableState where
  store : List Row
  index : Idx
deriving DecidableEq, Repr

/-- `ExecutionEngine.insert_row` for a table with declared columns
`cols` and optional primary key `pk`: validate, read the stored rows,
check uniqueness through the index, append, persist, then insert into
the index.  On any failure before the write the state is unchanged; the
index insert happens only after the write. -/
def insert_row (cols : Columns) (pk : Option String) (s : TableState) (row : Row) :
    Except DbError Unit × TableState :=
  match validate_row cols row with
  | .error e => (.error e, s)
  | .ok _ =>
    match pk with
    | none => (.ok (), { s with store := s.store ++ [row] })
    | some pkc =>
      match lookupStr row pkc with
      | none => (.error (.keyError pkc), s)
      | some v =>
        if (index_lookup s.index v).isSome then (.error (.uniqueness v), s)
        else
          let store1 := s.store ++ [row]
          match index_insert s.index v row with
          | .error e => (.error e, { store := store1, index := s.index })
          | .ok idx1 => (.ok (), { store := store1, index := idx1 })

/-- One matched row inside `ExecutionEngine.update_rows`: apply the
updates in place, re-validate the mutated row, and re-key the index
when the primary-key value changed (`old_pk != new_pk` under Python
`!=`).  An error result carries the index as mutated so far, since a
raised exception does not roll the in-memory index back. -/
def update_one (cols : Columns) (pk : Option String) (updates : List (String × Value))
    (row : Row) (idx : Idx) : Except (DbError × Idx) (Row × Idx) :=
  let row1 := applyUpdates row updates
  match validate_row cols row1 with
  | .error e => .error (e, idx)
  | .ok _ =>
    match pk with
    | none => .ok (row1, idx)
    | some pkc =>
      let oldPk := lookupStr row pkc
      match lookupStr row1 pkc with
      | none => .error (.keyError pkc, idx)
      | some newPk =>
        if pyEqO oldPk (some newPk) then .ok (row1, idx)
        else
          let idx1 := match oldPk with
            | none => idx
            | some ov => index_delete idx ov
          match index_insert idx1 newPk row1 with
          | .error e => .error (e, idx1)
          | .ok idx2 => .ok (row1, idx2)

/-- The row loop of `ExecutionEngine.update_rows`: rows failing the
predicate are kept as they are; the in-memory row list, the index and
the updated count are threaded through; the first raised error aborts
the loop (carrying the index as mutated so far). -/
def update_loop (cols : Columns) (pk : Option String) (pred : Row → Bool)
    (updates : List (String × Value)) :
    List Row → Idx → Nat → Except (DbError × Idx) (List Row × Idx × Nat)
  | [], idx, n => .ok ([], idx, n)
  | row :: rest, idx, n =>
    if pred row then
      match update_one cols pk updates row idx with
      | .error e => .error e
      | .ok (row1, idx1) =>
        match update_loop cols pk pred updates rest idx1 (n + 1) with
        | .error e => .error e
        | .ok (rows1, idx2, n1) => .ok (row1 :: rows1, idx2, n1)
    else
      match update_loop cols pk pred updates rest idx n with
      | .error e => .error e
      | .ok (rows1, idx2, n1) => .ok (row :: rows1, idx2, n1)

/-- `ExecutionEngine.update_rows`: runs the loop over the stored rows;
the single `write_table` happens once at the end, so on an error the
persisted store is untouched while the index keeps its partial
mutations. -/
def update_rows (cols : Columns) (pk : Option String) (s : TableState)
    (pred : Row → Bool) (updates : List (String × Value)) :
    Except DbError Nat × TableState :=
  match update_loop cols pk pred updates s.store s.index 0 with
  | .error (e, idx1) => (.error e, { store := s.store, index := idx1 })
  | .ok (rows1, idx1, n) => (.ok n, { store := rows1, index := idx1 })

/-- The row loop of `ExecutionEngine.delete_rows`: a matched row's
index entry is removed (`row[primary_key]` raises `KeyError` when the
row lacks the key); survivors are collected in order. -/
def delete_loop (pk : Option String) (pred : Row → Bool) :
    List Row → Idx → Nat → Except (DbError × Idx) (List Row × Idx × Nat)
  | [], idx, n => .ok ([], idx, n)
  | row :: rest, idx, n =>
    if pred row then
      match pk with
      | none => delete_loop pk pred rest idx (n + 1)
      | some pkc =>
        match lookupStr row pkc with
        | none => .error (.keyError pkc, idx)
        | some v => delete_loop pk pred rest (index_delete idx v) (n + 1)
    else
      match delete_loop pk pred rest idx n with
      | .error e => .error e
      | .ok (rows1, idx1, n1) => .ok (row :: rows1, idx1, n1)

/-- `ExecutionEngine.delete_rows`: the surviving rows are persisted by
the single write at the end; an error leaves the store untouched. -/
def delete_rows (pk : Option String) (s : TableState) (pred : Row → Bool) :
    Except DbError Nat × TableState :=
  match delete_loop pk pred s.store s.index 0 with
  | .error (e, idx1) => (.error e, { store := s.store, index := idx1 })
  | .ok (rows1, idx1, n) => (.ok n, { store := rows1, index := idx1 })

/-- `ExecutionEngine.select_rows`: full scan, optional predicate
filter, optional projection (`{col: row[col] for col in columns if col
in row}` — a requested column absent from a row is silently omitted). -/
def select_rows (s : TableState) (wh : Option (Row → Bool))
    (columns : Option (List String)) : List Row :=
  let rows := s.store
  let rows := match wh with
    | some p => rows.filter p
    | none => rows
  match columns with
  | some cs => rows.map (fun row => cs.filterMap (fun c => (lookupStr row c).map ((c, ·))))
  | none => rows

/-- `ExecutionEngine.select_by_primary_key`: a pure index lookup. -/
def select_by_primary_key (s : TableState) (v : Value) : Option Row :=
  index_lookup s.index v

/-- `ExecutionEngine.load_table_index`: rebuilds the table's index from
its stored rows when a primary key is declared; on a build failure the
old index is kept (the source assigns the new dict only after the
scan). -/
def load_table_index (pk : Option String) (s : TableState) :
    Except DbError Unit × TableState :=
  match pk with
  | none => (.ok (), s)
  | some pkc =>
    match build_index s.store pkc with
    | .error e => (.error e, s)
    | .ok idx => (.ok (), { s with index := idx })

/-- `ExecutionEngine.nested_loop_join` on the two tables' stored rows:
for every left row, every right row agreeing on `on_column` under
Python `==` (via `dict.get`, so two rows both lacking the column also
agree) yields `{**left_row, **right_row}`. -/
def nested_loop_join (left right : List Row) (onc : String) : List Row :=
  left.flatMap (fun l =>
    (right.filter (fun r => pyEqO (lookupStr l onc) (lookupStr r onc))).map
      (fun r => rowMerge l r))

/-! ### Helper lemmas about lookups -/

/-- Left-biased choice on options (`a or b` in Python terms). -/
def optOr {α : Type} : Option α → Option α → Option α
  | some a, _ => some a
  | none, b => b

theorem optOr_none {α : Type} (a : Option α) : optOr a none = a := by
  cases a <;> rfl

theorem lookupStr_append {α : Type} (a b : List (String × α)) (k : String) :
    lookupStr (a ++ b) k = optOr (lookupStr a k) (lookupStr b k) := by
  induction a with
  | nil => rfl
  | cons p a ih =>
    by_cases h : p.1 = k <;> simp [lookupStr, h, ih, optOr]

theorem lookupStr_eq_none_iff {α : Type} (l : List (String × α)) (k : String) :
    lookupStr l k = none ↔ ∀ p ∈ l, p.1 ≠ k := by
  induction l with
  | nil => simp [lookupStr]
  | cons p l ih =>
    by_cases h : p.1 = k <;> simp [lookupStr, h, ih]

theorem lookupStr_isSome_iff {α : Type} (l : List (String × α)) (k : String) :
    (lookupStr l k).isSome = true ↔ ∃ p ∈ l, p.1 = k := by
  induction l with
  | nil => simp [lookupStr]
  | cons p l ih =>
    by_cases h : p.1 = k <;> simp [lookupStr, h, ih]

theorem index_lookup_eq_none (idx : Idx) (v : Value)
    (h : ∀ p ∈ idx, pyEq p.1 v = false) : index_lookup idx v = none := by
  induction idx with
  | nil => rfl
  | cons p idx ih =>
    have hp := h p (by simp)
    simp [index_lookup, hp]
    exact ih (fun q hq => h q (by simp [hq]))

theorem index_lookup_append (a b : Idx) (v : Value) :
    index_lookup (a ++ b) v = optOr (index_lookup a v) (index_lookup b v) := by
  induction a with
  | nil => rfl
  | cons p a ih =>
    by_cases h : pyEq p.1 v = true <;> simp [index_lookup, h, ih, optOr]

/-! ### C4: row validation against the schema -/

/-- **C4.**  `validateRow` fails `MissingColumn` when a declared column is
absent from the row; when all declared columns are present it fails
`UnknownColumn` when the row has an undeclared column; when the column
sets agree it succeeds exactly when every column's value passes the type
check and fails `TypeMismatch` exactly when some column's value violates
it; and the per-type rule is: Int admits exactly the integral non-boolean
variant, Float the integral or floating non-boolean variants, String
exactly strings, Bool exactly booleans. -/
theorem validate_row_spec (cols : Columns) (row : Row) :
    ((∃ c ∈ cols, lookupStr row c.1 = none) →
      ∃ c, validate_row cols row = .error (.missingColumn c))
  ∧ ((∀ c ∈ cols, (lookupStr row c.1).isSome) →
      (∃ p ∈ row, lookupStr cols p.1 = none) →
      ∃ c, validate_row cols row = .error (.unknownColumn c))
  ∧ ((∀ c ∈ cols, (lookupStr row c.1).isSome) →
      (∀ p ∈ row, (lookupStr cols p.1).isSome) →
      ((validate_row cols row = .ok () ↔ ∀ c ∈ cols, colOk row c = true)
       ∧ ((∃ c, validate_row cols row = .error (.typeMismatch c)) ↔
           ∃ c ∈ cols, colOk row c = false)))
  ∧ (∀ v : Value,
      (typeOk .dInt v = true ↔ ∃ n, v = .vInt n)
      ∧ (typeOk .dFloat v = true ↔ (∃ n, v = .vInt n) ∨ ∃ q, v = .vFloat q)
      ∧ (typeOk .dStr v = true ↔ ∃ s, v = .vStr s)
      ∧ (typeOk .dBool v = true ↔ ∃ b, v = .vBool b)) := by
  refine ⟨?_, ?_, ?_, ?_⟩
  · rintro ⟨c, hc, hnone⟩
    have hsome : (cols.find? (fun c => (lookupStr row c.1).isNone)).isSome := by
      rw [List.find?_isSome]
      exact ⟨c, hc, by simp [hnone]⟩
    obtain ⟨c0, hc0⟩ := Option.isSome_iff_exists.mp hsome
    exact ⟨c0.1, by simp [validate_row, hc0]⟩
  · intro hall
    rintro ⟨p, hp, hnone⟩
    have h1 : cols.find? (fun c => (lookupStr row c.1).isNone) = none := by
      rw [List.find?_eq_none]
      intro c hc
      have := hall c hc
      simp [Option.isNone_iff_eq_none]
      intro heq
      rw [heq] at this
      simp at this
    have hsome : (row.find? (fun p => (lookupStr cols p.1).isNone)).isSome := by
      rw [List.find?_isSome]
      exact ⟨p, hp, by simp [hnone]⟩
    obtain ⟨p0, hp0⟩ := Option.isSome_iff_exists.mp hsome
    exact ⟨p0.1, by simp [validate_row, h1, hp0]⟩
  · intro hall hrow
    have h1 : cols.find? (fun c => (lookupStr row c.1).isNone) = none := by
      rw [List.find?_eq_none]
      intro c hc
      have := hall c hc
      simp [Option.isNone_iff_eq_none]
      intro heq
      rw [heq] at this
      simp at this
    have h2 : row.find? (fun p => (lookupStr cols p.1).isNone) = none := by
      rw [List.find?_eq_none]
      intro p hp
      have := hrow p hp
      simp [Option.isNone_iff_eq_none]
      intro heq
      rw [heq] at this
      simp at this
    constructor
    · constructor
      · intro hok
        intro c hc
        by_contra hbad
        have hsome : (cols.find? (fun c => ! colOk row c)).isSome := by
          rw [List.find?_isSome]
          exact ⟨c, hc, by simp [hbad]⟩
        obtain ⟨c0, hc0⟩ := Option.isSome_iff_exists.mp hsome
        simp [validate_row, h1, h2, hc0] at hok
      · intro hgood
        have h3 : cols.find? (fun c => ! colOk row c) = none := by
          rw [List.find?_eq_none]
          intro c hc
          simp [hgood c hc]
        simp [validate_row, h1, h2, h3]
    · constructor
      · rintro ⟨c, hc⟩
        by_cases h3 : (cols.find? (fun c => ! colOk row c)).isSome
        · obtain ⟨c0, hc0⟩ := Option.isSome_iff_exists.mp h3
          have hc0mem := List.mem_of_find?_eq_some hc0
          have hc0bad := List.find?_some hc0
          exact ⟨c0, hc0mem, by simpa using hc0bad⟩
        · have h3n : cols.find? (fun c => ! colOk row c) = none := by
            simpa [Option.isNone_iff_eq_none, Option.not_isSome_iff_eq_none] using h3
          simp [validate_row, h1, h2, h3n] at hc
      · rintro ⟨c, hc, hbad⟩
        have hsome : (cols.find? (fun c => ! colOk row c)).isSome := by
          rw [List.find?_isSome]
          exact ⟨c, hc, by simp [hbad]⟩
        obtain ⟨c0, hc0⟩ := Option.isSome_iff_exists.mp hsome
        exact ⟨c0.1, by simp [validate_row, h1, h2, hc0]⟩
  · intro v
    refine ⟨?_, ?_, ?_, ?_⟩ <;> cases v <;> simp [typeOk]

/-- Witness for C4 on the concrete schema `{"id": Int, "name": String}`:
a row missing `name` is rejected with `MissingColumn`, and for a row
with the right column set acceptance is exactly the per-column check. -/
theorem validate_row_spec_witness :
    (∃ c, validate_row [("id", .dInt), ("name", .dStr)] [("id", .vInt 1)]
        = .error (.missingColumn c))
  ∧ (validate_row [("id", .dInt), ("name", .dStr)]
        [("id", .vInt 1), ("name", .vStr "a")] = .ok ()
      ↔ ∀ c ∈ [("id", DataType.dInt), ("name", DataType.dStr)],
          colOk [("id", .vInt 1), ("name", .vStr "a")] c = true)
  ∧ (typeOk .dFloat (.vBool true) = true ↔
      (∃ n, Value.vBool true = .vInt n) ∨ ∃ q, Value.vBool true = .vFloat q) := by
  refine ⟨?_, ?_, ?_⟩
  · exact (validate_row_spec [("id", .dInt), ("name", .dStr)] [("id", .vInt 1)]).1
      ⟨("name", .dStr), by decide, by decide⟩
  · exact ((validate_row_spec [("id", .dInt), ("name", .dStr)]
      [("id", .vInt 1), ("name", .vStr "a")]).2.2.1 (by decide) (by decide)).1
  · exact ((validate_row_spec [] []).2.2.2 (.vBool true)).2.1

/-! ### The concrete scenario table
`createTable("t", {"id": "Int", "name": "String"}, "id")` followed by
`insertRow("t", {"id": 1, "name": "a"})`. -/

/-- Schema of the scenario table `t`. -/
def colsT : Columns := [("id", .dInt), ("name", .dStr)]

/-- The row `{"id": 1, "name": "a"}`. -/
def rowA : Row := [("id", .vInt 1), ("name", .vStr "a")]

/-- The row `{"id": 1, "name": "b"}`. -/
def rowB : Row := [("id", .vInt 1), ("name", .vStr "b")]

/-- The row `{"id": 1, "name": "z"}`. -/
def rowZ : Row := [("id", .vInt 1), ("name", .vStr "z")]

/-- The predicate `row.id == 1` (Python `row.get("id") == 1`). -/
def predId1 : Row → Bool := fun r => pyEqO (lookupStr r "id") (some (.vInt 1))

/-- Table `t` right after `createTable`: empty store, empty index. -/
def tableT0 : TableState := { store := [], index := [] }

/-- Table `t` after `insertRow("t", {"id": 1, "name": "a"})`. -/
def tableT1 : TableState := (insert_row colsT (some "id") tableT0 rowA).2

/-- The call `updateRows("t", row.id == 1, {"name": "z"})` on `tableT1`. -/
def updT : Except DbError Nat × TableState :=
  update_rows colsT (some "id") tableT1 predId1 [("name", .vStr "z")]

/-! ### C1: update then primary-key lookup (corrected) -/

/-- **C1, counterexample.**  In the scenario, `updateRows` does return 1,
but the subsequent `selectByPrimaryKey("t", 1)` does **not** return the
updated row `{"id": 1, "name": "z"}`: `update_rows` re-keys the index
only when the primary-key value changed, and the index entry still holds
the row object recorded at insert time, so the lookup yields the stale
`{"id": 1, "name": "a"}`. -/
theorem updateRows_then_pk_lookup_counterexample :
    updT.1 = .ok 1 ∧ select_by_primary_key updT.2 (.vInt 1) ≠ some rowZ := by
  decide

/-- **C1, amended.**  `updateRows("t", row.id == 1, {"name": "z"})`
returns 1 and the persisted table content becomes
`[{"id": 1, "name": "z"}]` (so `selectRows` sees the update), but
`selectByPrimaryKey("t", 1)` returns the stale pre-update row
`{"id": 1, "name": "a"}`; only after `loadTableIndex("t")` does
`selectByPrimaryKey("t", 1)` return `{"id": 1, "name": "z"}`. -/
theorem updateRows_then_pk_lookup_amended :
    updT.1 = .ok 1
    ∧ updT.2.store = [rowZ]
    ∧ select_rows updT.2 none none = [rowZ]
    ∧ select_by_primary_key updT.2 (.vInt 1) = some rowA
    ∧ (load_table_index (some "id") updT.2).1 = .ok ()
    ∧ select_by_primary_key (load_table_index (some "id") updT.2).2 (.vInt 1)
        = some rowZ := by
  decide

/-! ### C2: duplicate primary key on insert -/

/-- **C2.**  For a table with a declared primary key whose index covers
every primary-key value stored in the table (the index/storage agreement
the engine maintains), inserting a valid row whose primary-key value
already occurs in a stored row raises the uniqueness violation and
leaves the whole state — in particular the persisted row sequence —
unchanged: the single write of `insert_row` sits after the check. -/
theorem insert_duplicate_pk_fails (cols : Columns) (pkc : String) (s : TableState)
    (row : Row) (v : Value)
    (hval : validate_row cols row = .ok ())
    (hpk : lookupStr row pkc = some v)
    (hagree : ∀ w : Value,
      (∃ r ∈ s.store, pyEqO (lookupStr r pkc) (some w) = true) →
      (index_lookup s.index w).isSome = true)
    (hdup : ∃ r ∈ s.store, pyEqO (lookupStr r pkc) (some v) = true) :
    insert_row cols (some pkc) s row = (.error (.uniqueness v), s) := by
  have hidx := hagree v hdup
  simp [insert_row, hval, hpk, hidx]

/-- Witness for C2: the scenario — after inserting
`{"id": 1, "name": "a"}`, inserting `{"id": 1, "name": "b"}` raises the
uniqueness violation, the state is unchanged and `selectRows("t")`
still returns exactly `[{"id": 1, "name": "a"}]`. -/
theorem insert_duplicate_pk_fails_witness :
    validate_row colsT rowB = .ok ()
    ∧ lookupStr rowB "id" = some (.vInt 1)
    ∧ (∃ r ∈ tableT1.store, pyEqO (lookupStr r "id") (some (.vInt 1)) = true)
    ∧ insert_row colsT (some "id") tableT1 rowB = (.error (.uniqueness (.vInt 1)), tableT1)
    ∧ select_rows tableT1 none none = [rowA] := by
  refine ⟨by decide, by decide, ⟨rowA, by decide, by decide⟩, ?_, by decide⟩
  refine insert_duplicate_pk_fails colsT "id" tableT1 rowB (.vInt 1)
    (by decide) (by decide) ?_ ⟨rowA, by decide, by decide⟩
  intro w hw
  obtain ⟨r, hr, hpy⟩ := hw
  have hstore : tableT1.store = [rowA] := by decide
  rw [hstore] at hr
  have hrA : r = rowA := by simpa using hr
  subst hrA
  have hid : lookupStr rowA "id" = some (.vInt 1) := by decide
  rw [hid] at hpy
  have hidx : tableT1.index = [(.vInt 1, rowA)] := by decide
  rw [hidx]
  simp [index_lookup]
  simpa [pyEqO] using hpy

/-! ### C3: primary-key uniqueness invariant (code bug) -/

/-- Schema of a one-column table `u` with `{"id": "Int"}`, key `id`. -/
def colsU : Columns := [("id", .dInt)]

/-- Table `u` after `createTable` and `insertRow({"id": 1})`,
`insertRow({"id": 2})`. -/
def tableU2 : TableState :=
  (insert_row colsU (some "id") (insert_row colsU (some "id")
    { store := [], index := [] } [("id", .vInt 1)]).2 [("id", .vInt 2)]).2

/-- The failing `updateRows("u", row.id == 1, {"id": 2})` on `tableU2`. -/
def updU : Except DbError Nat × TableState :=
  update_rows colsU (some "id") tableU2 predId1 [("id", .vInt 2)]

/-- The subsequent `insertRow("u", {"id": 1})` after the failed update. -/
def insU : Except DbError Unit × TableState :=
  insert_row colsU (some "id") updU.2 [("id", .vInt 1)]

/-- **C3 (bug evaluation).**  From an empty table with primary key `id`:
after `insertRow({"id": 1})`, `insertRow({"id": 2})`, the call
`updateRows(row.id == 1, {"id": 2})` raises a duplicate-key error — but
`index.update` had already deleted the entry for key 1 before the
failing insert, so the index irrecoverably forgets key 1 while the
persisted rows are untouched.  The next `insertRow({"id": 1})` then
passes the index-based uniqueness check and persists a second row with
primary-key value 1: the persisted row sequence holds two rows with the
same primary-key value, violating the invariant after an operation that
returned normally. -/
theorem duplicate_pk_reachable :
    updU.1 = .error (.duplicateKey (.vInt 2))
    ∧ updU.2.store = [[("id", .vInt 1)], [("id", .vInt 2)]]
    ∧ insU.1 = .ok ()
    ∧ insU.2.store = [[("id", .vInt 1)], [("id", .vInt 2)], [("id", .vInt 1)]]
    ∧ (insU.2.store.map (fun r => lookupStr r "id")).count (some (.vInt 1)) = 2 := by
  decide

/-! ### C6: a failed re-validation aborts updateRows before persistence -/

/-- **C6.**  Whenever `update_rows` raises — in particular when
re-validating a mutated row fails — the persisted row sequence of the
table is exactly what it was before the call: the single `write_table`
happens once at the end of the loop and is never reached on an error. -/
theorem update_rows_error_preserves_store (cols : Columns) (pk : Option String)
    (s : TableState) (pred : Row → Bool) (updates : List (String × Value))
    (e : DbError)
    (herr : (update_rows cols pk s pred updates).1 = .error e) :
    (update_rows cols pk s pred updates).2.store = s.store := by
  unfold update_rows at *
  cases h : update_loop cols pk pred updates s.store s.index 0 with
  | error p => simp [h]
  | ok t => rw [h] at herr; simp at herr

/-- Witness for C6: on the scenario table,
`updateRows("t", row.id == 1, {"name": 5})` makes the mutated row fail
re-validation (`name` declared String, given an Int), so the call raises
`TypeMismatch` and the stored rows are unchanged. -/
theorem update_rows_error_preserves_store_witness :
    (update_rows colsT (some "id") tableT1 predId1 [("name", .vInt 5)]).1
      = .error (.typeMismatch "name")
    ∧ (update_rows colsT (some "id") tableT1 predId1 [("name", .vInt 5)]).2.store
      = tableT1.store := by
  refine ⟨by decide, ?_⟩
  exact update_rows_error_preserves_store colsT (some "id") tableT1 predId1
    [("name", .vInt 5)] (.typeMismatch "name") (by decide)

/-! ### C10: updates entries not naming a column of the row -/

theorem rowSet_keys (r : Row) (k : String) (v : Value) :
    (rowSet r k v).map Prod.fst = r.map Prod.fst := by
  induction r with
  | nil => rfl
  | cons p r ih =>
    by_cases h : p.1 = k <;> simp [rowSet, h, ih]

theorem lookupStr_rowSet_ne (r : Row) (k' k : String) (v : Value) (h : k' ≠ k) :
    lookupStr (rowSet r k' v) k = lookupStr r k := by
  induction r with
  | nil => rfl
  | cons p r ih =>
    by_cases hp : p.1 = k'
    · subst hp
      have hk : ¬ p.1 = k := h
      simp [rowSet, lookupStr, hk, ih]
    · by_cases hk : p.1 = k
      · have hkk : ¬ k = k' := fun hc => h hc.symm
        simp [rowSet, lookupStr, hp, hk, hkk, ih]
      · simp [rowSet, lookupStr, hp, hk, ih]

theorem lookupStr_isSome_iff_keys {α : Type} (l : List (String × α)) (k : String) :
    (lookupStr l k).isSome = true ↔ k ∈ l.map Prod.fst := by
  rw [lookupStr_isSome_iff]
  constructor
  · rintro ⟨p, hp, hk⟩
    exact List.mem_map.mpr ⟨p, hp, hk⟩
  · intro hk
    obtain ⟨p, hp, hk⟩ := List.mem_map.mp hk
    exact ⟨p, hp, hk⟩

theorem lookupStr_rowSet_isSome (r : Row) (k' k : String) (v : Value) :
    (lookupStr (rowSet r k' v) k).isSome = (lookupStr r k).isSome := by
  rw [Bool.eq_iff_iff, lookupStr_isSome_iff_keys, lookupStr_isSome_iff_keys, rowSet_keys]

theorem lookupStr_rowSet_self (r : Row) (k : String) (v : Value)
    (h : (lookupStr r k).isSome = true) : lookupStr (rowSet r k v) k = some v := by
  induction r with
  | nil => simp [lookupStr] at h
  | cons p r ih =>
    by_cases hp : p.1 = k
    · simp [rowSet, lookupStr, hp]
    · simp [rowSet, lookupStr, hp] at h ⊢
      exact ih h

theorem applyUpdates_cons (row : Row) (p : String × Value) (us : List (String × Value)) :
    applyUpdates row (p :: us)
      = applyUpdates (if (lookupStr row p.1).isSome then rowSet row p.1 p.2 else row) us := by
  rfl

theorem applyUpdates_keys (us : List (String × Value)) :
    ∀ row : Row, (applyUpdates row us).map Prod.fst = row.map Prod.fst := by
  induction us with
  | nil => intro row; rfl
  | cons p us ih =>
    intro row
    rw [applyUpdates_cons]
    by_cases h : (lookupStr row p.1).isSome
    · simp [h, ih, rowSet_keys]
    · simp [h, ih]

theorem lookupStr_eq_none_iff_keys {α : Type} (l : List (String × α)) (k : String) :
    lookupStr l k = none ↔ k ∉ l.map Prod.fst := by
  rw [← Option.not_isSome_iff_eq_none]
  exact not_congr (lookupStr_isSome_iff_keys l k)

/-- **C10.**  The update loop of `update_rows` applies only the updates
entries whose key is already a column of the matched row: (i) the
column set of the row is unchanged; (ii) dropping every updates entry
whose key is not a column of the row changes nothing — such entries are
silently ignored (the loop is a total function: no `UnknownColumn` or
other error arises from them); (iii) no new column appears; (iv) a
column not named in the updates keeps its previous value; (v) a column
that is named is overwritten with the given value. -/
theorem applyUpdates_spec :
    (∀ (row : Row) (us : List (String × Value)),
      (applyUpdates row us).map Prod.fst = row.map Prod.fst)
  ∧ (∀ (row : Row) (us : List (String × Value)),
      applyUpdates row us
        = applyUpdates row (us.filter (fun p => (lookupStr row p.1).isSome)))
  ∧ (∀ (row : Row) (us : List (String × Value)) (k : String),
      lookupStr row k = none → lookupStr (applyUpdates row us) k = none)
  ∧ (∀ (row : Row) (us : List (String × Value)) (k : String),
      (∀ p ∈ us, p.1 ≠ k) → lookupStr (applyUpdates row us) k = lookupStr row k)
  ∧ (∀ (row : Row) (k : String) (v : Value),
      (lookupStr row k).isSome = true →
      lookupStr (applyUpdates row [(k, v)]) k = some v) := by
  refine ⟨fun row us => applyUpdates_keys us row, ?_, ?_, ?_, ?_⟩
  · intro row us
    induction us generalizing row with
    | nil => rfl
    | cons p us ih =>
      by_cases h : (lookupStr row p.1).isSome
      · rw [applyUpdates_cons]
        simp only [h, if_true, List.filter_cons, applyUpdates_cons]
        rw [ih (rowSet row p.1 p.2)]
        have hfil : us.filter (fun q => (lookupStr (rowSet row p.1 p.2) q.1).isSome)
            = us.filter (fun q => (lookupStr row q.1).isSome) := by
          apply List.filter_congr
          intro q _
          rw [lookupStr_rowSet_isSome]
        rw [hfil]
      · have hf : (lookupStr row p.1).isSome = false := by
          simpa using h
        rw [applyUpdates_cons, List.filter_cons]
        simp only [hf, Bool.false_eq_true, if_false]
        exact ih row
  · intro row us k hk
    have h1 : k ∉ row.map Prod.fst := (lookupStr_eq_none_iff_keys row k).mp hk
    rw [lookupStr_eq_none_iff_keys, applyUpdates_keys]
    exact h1
  · intro row us k hk
    induction us generalizing row with
    | nil => rfl
    | cons p us ih =>
      have hp : p.1 ≠ k := hk p (by simp)
      rw [applyUpdates_cons]
      by_cases h : (lookupStr row p.1).isSome
      · simp only [h, if_true]
        rw [ih (rowSet row p.1 p.2) (fun q hq => hk q (by simp [hq]))]
        exact lookupStr_rowSet_ne row p.1 k p.2 hp
      · simp only [h, if_false]
        exact ih row (fun q hq => hk q (by simp [hq]))
  · intro row k v h
    rw [applyUpdates_cons]
    simp only [h, if_true]
    exact lookupStr_rowSet_self row k v h

/-- Witness for C10 on the row `{"id": 1, "name": "a"}` with updates
`{"name": "z", "extra": 7}`: the unknown key `extra` is ignored (it is
filtered away, adds no column) and `id` keeps its value while `name` is
overwritten. -/
theorem applyUpdates_spec_witness :
    (applyUpdates rowA [("name", .vStr "z"), ("extra", .vInt 7)]).map Prod.fst
      = rowA.map Prod.fst
    ∧ applyUpdates rowA [("name", .vStr "z"), ("extra", .vInt 7)]
      = applyUpdates rowA ([("name", .vStr "z"), ("extra", .vInt 7)].filter
          (fun p => (lookupStr rowA p.1).isSome))
    ∧ lookupStr rowA "extra" = none
    ∧ lookupStr (applyUpdates rowA [("name", .vStr "z"), ("extra", .vInt 7)]) "extra" = none
    ∧ lookupStr (applyUpdates rowA [("name", .vStr "z")]) "id" = lookupStr rowA "id"
    ∧ (lookupStr rowA "name").isSome = true
    ∧ lookupStr (applyUpdates rowA [("name", .vStr "z")]) "name" = some (.vStr "z") := by
  refine ⟨applyUpdates_spec.1 rowA _, applyUpdates_spec.2.1 rowA _, by decide,
    applyUpdates_spec.2.2.1 rowA _ "extra" (by decide),
    applyUpdates_spec.2.2.2.1 rowA _ "id" (by decide), by decide,
    applyUpdates_spec.2.2.2.2 rowA "name" (.vStr "z") (by decide)⟩

/-! ### C5: nested-loop join -/

theorem lookupStr_mergeMap (l r : Row) (k : String) (v : Value)
    (hr : lookupStr r k = some v) (hl : (lookupStr l k).isSome = true) :
    lookupStr (l.map (fun p =>
      match lookupStr r p.1 with
      | some w => (p.1, w)
      | none => p)) k = some v := by
  induction l with
  | nil => simp [lookupStr] at hl
  | cons p l ih =>
    by_cases hp : p.1 = k
    · subst hp
      simp [lookupStr, hr]
    · simp [lookupStr, hp] at hl
      cases hrp : lookupStr r p.1 <;> simp [lookupStr, hrp, hp] <;> exact ih hl

theorem mergeMap_keys (l r : Row) :
    (l.map (fun p =>
      match lookupStr r p.1 with
      | some w => (p.1, w)
      | none => p)).map Prod.fst = l.map Prod.fst := by
  induction l with
  | nil => rfl
  | cons p l ih =>
    cases hrp : lookupStr r p.1 <;> simp [hrp, ih]

theorem lookupStr_filter_keep (rr : List (String × Value)) (g : String × Value → Bool)
    (k : String) (h : ∀ p ∈ rr, p.1 = k → g p = true) :
    lookupStr (rr.filter g) k = lookupStr rr k := by
  induction rr with
  | nil => rfl
  | cons p rr ih =>
    by_cases hp : p.1 = k
    · have hg := h p (by simp) hp
      simp [List.filter_cons, hg, lookupStr, hp]
    · cases hg : g p
      · simp [List.filter_cons, hg, lookupStr, hp]
        exact ih (fun q hq => h q (by simp [hq]))
      · simp [List.filter_cons, hg, lookupStr, hp]
        exact ih (fun q hq => h q (by simp [hq]))

theorem nested_loop_join_cons (l : Row) (left right : List Row) (onc : String) :
    nested_loop_join (l :: left) right onc
      = (right.filter (fun r => pyEqO (lookupStr l onc) (lookupStr r onc))).map
          (fun r => rowMerge l r) ++ nested_loop_join left right onc := by
  simp [nested_loop_join]

theorem product_cons_eq {α β : Type} (a : α) (l1 : List α) (l2 : List β) :
    (a :: l1).product l2 = l2.map (fun b => (a, b)) ++ l1.product l2 := rfl

/-- **C5.**  `nestedLoopJoin(A, B, col)` returns exactly the merged row
`{**a, **b}` for each pair of the cartesian product `A × B` (each pair
taken exactly once, in loop order) whose values under `col` agree under
Python `==` (via `dict.get`), and nothing else; and in a merged row a
field present in both inputs carries the right-hand row's value. -/
theorem nested_loop_join_spec (left right : List Row) (onc : String) :
    (nested_loop_join left right onc
      = ((left.product right).filter
          (fun p => pyEqO (lookupStr p.1 onc) (lookupStr p.2 onc))).map
          (fun p => rowMerge p.1 p.2))
  ∧ (∀ (l r : Row) (k : String),
      (lookupStr l k).isSome = true → (lookupStr r k).isSome = true →
      lookupStr (rowMerge l r) k = lookupStr r k) := by
  constructor
  · induction left with
    | nil => rfl
    | cons l left ih =>
      rw [nested_loop_join_cons, product_cons_eq, List.filter_append, List.map_append, ih]
      congr 1
      rw [List.filter_map, List.map_map]
      rfl
  · intro l r k hl hr
    obtain ⟨v, hv⟩ := Option.isSome_iff_exists.mp hr
    rw [hv]
    unfold rowMerge
    rw [lookupStr_append]
    by_cases hll : (lookupStr l k).isSome = true
    · rw [lookupStr_mergeMap l r k v hv hll]
      rfl
    · have hnone : lookupStr (l.map (fun p =>
          match lookupStr r p.1 with
          | some w => (p.1, w)
          | none => p)) k = none := by
        rw [lookupStr_eq_none_iff_keys, mergeMap_keys]
        exact fun hmem => hll ((lookupStr_isSome_iff_keys l k).mpr hmem)
      rw [hnone]
      have hfil := lookupStr_filter_keep r (fun p => (lookupStr l p.1).isNone) k
        (fun p _ hp => by
          have hn : lookupStr l k = none := Option.not_isSome_iff_eq_none.mp hll
          simp [hp, hn])
      rw [hfil, hv]
      rfl

/-- Witness for C5: joining `[{"id":1,"v":"L"}]` with `[{"id":1,"v":"R"}]`
on `id` produces exactly the one merged row, and the colliding field `v`
carries the right row's value. -/
theorem nested_loop_join_spec_witness :
    nested_loop_join [[("id", Value.vInt 1), ("v", Value.vStr "L")]]
        [[("id", Value.vInt 1), ("v", Value.vStr "R")]] "id"
      = [[("id", Value.vInt 1), ("v", Value.vStr "R")]]
    ∧ (lookupStr ([("id", Value.vInt 1), ("v", Value.vStr "L")] : Row) "v").isSome = true
    ∧ (lookupStr ([("id", Value.vInt 1), ("v", Value.vStr "R")] : Row) "v").isSome = true
    ∧ lookupStr (rowMerge [("id", Value.vInt 1), ("v", Value.vStr "L")]
        [("id", Value.vInt 1), ("v", Value.vStr "R")]) "v"
      = lookupStr ([("id", Value.vInt 1), ("v", Value.vStr "R")] : Row) "v" := by
  refine ⟨by decide, by decide, by decide, ?_⟩
  exact (nested_loop_join_spec [] [] "id").2
    [("id", Value.vInt 1), ("v", Value.vStr "L")]
    [("id", Value.vInt 1), ("v", Value.vStr "R")] "v"
    (by decide) (by decide)

/-! ### C8: index/storage agreement after loadTableIndex -/

/-- The first stored row whose primary-key value equals (Python `==`)
the probe. -/
def rows_find (rows : List Row) (pkc : String) (v : Value) : Option Row :=
  rows.find? (fun r => pyEqO (lookupStr r pkc) (some v))

theorem build_index_go_spec (pkc : String) (rows : List Row) :
    ∀ acc : Idx,
    (∀ r ∈ rows, (lookupStr r pkc).isSome = true) →
    (∀ r ∈ rows, ∀ p ∈ acc, pyEqO (some p.1) (lookupStr r pkc) = false) →
    rows.Pairwise (fun a b => pyEqO (lookupStr a pkc) (lookupStr b pkc) = false) →
    ∃ idx, build_index_go rows pkc acc = .ok idx ∧
      ∀ v, index_lookup idx v = optOr (index_lookup acc v) (rows_find rows pkc v) := by
  induction rows with
  | nil =>
    intro acc _ _ _
    exact ⟨acc, rfl, fun v => (optOr_none _).symm⟩
  | cons row rest ih =>
    intro acc h1 h2 h3
    obtain ⟨v0, hv0⟩ := Option.isSome_iff_exists.mp (h1 row (by simp))
    have hacc : index_lookup acc v0 = none := by
      apply index_lookup_eq_none
      intro p hp
      have hpf := h2 row (by simp) p hp
      rw [hv0] at hpf
      simpa [pyEqO] using hpf
    have hstep : build_index_go (row :: rest) pkc acc
        = build_index_go rest pkc (acc ++ [(v0, row)]) := by
      simp [build_index_go, hv0, hacc]
    have h1' : ∀ r ∈ rest, (lookupStr r pkc).isSome = true :=
      fun r hr => h1 r (by simp [hr])
    have h2' : ∀ r ∈ rest, ∀ p ∈ acc ++ [(v0, row)],
        pyEqO (some p.1) (lookupStr r pkc) = false := by
      intro r hr p hp
      rcases List.mem_append.mp hp with hpa | hpb
      · exact h2 r (by simp [hr]) p hpa
      · have hpv : p = (v0, row) := by simpa using hpb
        subst hpv
        have hpw := (List.pairwise_cons.mp h3).1 r hr
        rw [hv0] at hpw
        exact hpw
    obtain ⟨idx, hgo, hchar⟩ := ih (acc ++ [(v0, row)]) h1' h2' (List.pairwise_cons.mp h3).2
    refine ⟨idx, by rw [hstep]; exact hgo, ?_⟩
    intro v
    rw [hchar v, index_lookup_append]
    have hfind : rows_find (row :: rest) pkc v
        = if pyEq v0 v then some row else rows_find rest pkc v := by
      by_cases hh : pyEq v0 v = true
      · rw [rows_find, List.find?_cons_of_pos _ (by simp [hv0, pyEqO, hh]), if_pos hh]
      · rw [rows_find, List.find?_cons_of_neg _ (by simp [hv0, pyEqO, hh]), if_neg hh]
        rfl
    cases hacc2 : index_lookup acc v <;> cases hh : pyEq v0 v <;>
      simp [optOr, index_lookup, hfind, hh, hacc2]

theorem rows_find_first (pkc : String) (rows : List Row) (r : Row) (v : Value)
    (h3 : rows.Pairwise (fun a b => pyEqO (lookupStr a pkc) (lookupStr b pkc) = false))
    (hr : r ∈ rows) (hk : lookupStr r pkc = some v) :
    rows_find rows pkc v = some r := by
  induction rows with
  | nil => simp at hr
  | cons a rest ih =>
    rcases List.mem_cons.mp hr with h | h
    · subst h
      rw [rows_find, List.find?_cons_of_pos _ (by simp [hk, pyEqO, pyEq])]
    · have ha : pyEqO (lookupStr a pkc) (some v) = false := by
        have hpw := (List.pairwise_cons.mp h3).1 r h
        rw [hk] at hpw
        exact hpw
      rw [rows_find, List.find?_cons_of_neg _ (by simp [ha])]
      exact ih (List.pairwise_cons.mp h3).2 h

/-- **C8.**  For a table whose stored rows all carry a primary-key value
and whose values are pairwise distinct (under Python `==`),
`loadTableIndex` succeeds without touching the stored rows, and
afterwards `selectByPrimaryKey` returns, for the key of every stored
row, exactly that stored row, and returns nothing for any probe value
matching no stored row's key. -/
theorem load_index_then_pk_lookup (pkc : String) (s : TableState)
    (h1 : ∀ r ∈ s.store, (lookupStr r pkc).isSome = true)
    (h3 : s.store.Pairwise (fun a b => pyEqO (lookupStr a pkc) (lookupStr b pkc) = false)) :
    ∃ s1 : TableState, load_table_index (some pkc) s = (.ok (), s1) ∧ s1.store = s.store
      ∧ (∀ r ∈ s.store, ∀ v, lookupStr r pkc = some v → select_by_primary_key s1 v = some r)
      ∧ (∀ v : Value, (∀ r ∈ s.store, pyEqO (lookupStr r pkc) (some v) = false) →
          select_by_primary_key s1 v = none) := by
  obtain ⟨idx, hgo, hchar⟩ := build_index_go_spec pkc s.store [] h1 (by simp) h3
  have hlook : ∀ v, index_lookup idx v = rows_find s.store pkc v := by
    intro v
    rw [hchar v]
    rfl
  refine ⟨{ s with index := idx }, ?_, rfl, ?_, ?_⟩
  · simp [load_table_index, build_index, hgo]
  · intro r hr v hv
    show index_lookup idx v = some r
    rw [hlook v]
    exact rows_find_first pkc s.store r v h3 hr hv
  · intro v hv
    show index_lookup idx v = none
    rw [hlook v]
    exact List.find?_eq_none.mpr (fun r hr => by simp [hv r hr])

/-- Witness for C8 on a two-row store with keys 1 and 2 and a stale
index: after the rebuild, key 1 finds the first row, key 2 the second,
and key 3 nothing. -/
theorem load_index_then_pk_lookup_witness :
    (∀ r ∈ [rowA, [("id", Value.vInt 2), ("name", Value.vStr "b")]],
        (lookupStr r "id").isSome = true)
    ∧ List.Pairwise (fun a b => pyEqO (lookupStr a "id") (lookupStr b "id") = false)
        [rowA, [("id", Value.vInt 2), ("name", Value.vStr "b")]]
    ∧ (∃ s1 : TableState,
        load_table_index (some "id")
          { store := [rowA, [("id", Value.vInt 2), ("name", Value.vStr "b")]],
            index := [(.vInt 9, rowB)] } = (.ok (), s1)
        ∧ s1.store = [rowA, [("id", Value.vInt 2), ("name", Value.vStr "b")]]
        ∧ (∀ r ∈ [rowA, [("id", Value.vInt 2), ("name", Value.vStr "b")]], ∀ v,
            lookupStr r "id" = some v → select_by_primary_key s1 v = some r)
        ∧ (∀ v : Value,
            (∀ r ∈ [rowA, [("id", Value.vInt 2), ("name", Value.vStr "b")]],
              pyEqO (lookupStr r "id") (some v) = false) →
            select_by_primary_key s1 v = none)) := by
  refine ⟨by decide, by decide, ?_⟩
  exact load_index_then_pk_lookup "id"
    { store := [rowA, [("id", Value.vInt 2), ("name", Value.vStr "b")]],
      index := [(.vInt 9, rowB)] } (by decide) (by decide)

/-! ### C9: storage engine write/read round trip

A table file holds one JSON document.  `json.dump` followed by
`json.load` is the identity at the JSON-value level (text serialisation
is not modelled; float payloads are the exact rationals of `Value`), so
the file system maps a table name to the JSON value last dumped. -/

/-- A JSON document as produced by `json.dump` / consumed by
`json.load`. -/
inductive Json where
  | jnull
  | jbool (b : Bool)
  | jint (n : Int)
  | jfloat (q : ℚ)
  | jstr (s : String)
  | jarr (elems : List Json)
  | jobj (fields : List (String × Json))

/-- JSON encoding of one runtime value. -/
def encodeValue : Value → Json
  | .vInt n => .jint n
  | .vFloat q => .jfloat q
  | .vStr s => .jstr s
  | .vBool b => .jbool b

/-- The runtime value a decoded JSON scalar stands for. -/
def decodeValue : Json → Option Value
  | .jint n => some (.vInt n)
  | .jfloat q => some (.vFloat q)
  | .jstr s => some (.vStr s)
  | .jbool b => some (.vBool b)
  | _ => none

/-- JSON encoding of a row: an object with the dict's key order. -/
def encodeRow (r : Row) : Json :=
  .jobj (r.map (fun p => (p.1, encodeValue p.2)))

/-- Reading an object element back as a row. -/
def decodeRow : Json → Option Row
  | .jobj fields => fields.mapM (fun p => (decodeValue p.2).map ((p.1, ·)))
  | _ => none

/-- JSON encoding of a full table: the array `json.dump(rows, f)`
writes. -/
def encodeRows (rows : List Row) : Json :=
  .jarr (rows.map encodeRow)

/-- The data directory: table name → content of `name.json`, if any. -/
def FileSys : Type := String → Option Json

/-- `StorageEngine.write_table`: serialize the full row list and
atomically replace the table's file with it. -/
def write_table (fs : FileSys) (name : String) (rows : List Row) : FileSys :=
  fun m => if m = name then some (encodeRows rows) else fs m

/-- `StorageEngine.read_table`: fails `NotFound` without a file, loads
the document and fails `Corrupt` unless it is a list; the elements are
returned as read. -/
def read_table (fs : FileSys) (name : String) : Except DbError (List Json) :=
  match fs name with
  | none => .error (.notFound name)
  | some (.jarr elems) => .ok elems
  | some _ => .error (.corrupt name)

theorem decodeValue_encodeValue (v : Value) : decodeValue (encodeValue v) = some v := by
  cases v <;> rfl

theorem decodeRow_encodeRow (r : Row) : decodeRow (encodeRow r) = some r := by
  show (r.map (fun p => (p.1, encodeValue p.2))).mapM
      (fun p => (decodeValue p.2).map ((p.1, ·))) = some r
  induction r with
  | nil => rfl
  | cons p r ih =>
    simp only [List.map_cons, List.mapM_cons, decodeValue_encodeValue, Option.map_some,
      Option.pure_def, Option.bind_eq_bind, Option.some_bind]
    rw [show (r.map (fun p => (p.1, encodeValue p.2))).mapM
        (fun p => (decodeValue p.2).map ((p.1, ·))) = some r from ih]
    rfl

/-- **C9.**  For every file system, table name and row sequence,
`writeTable(name, rows)` followed by `readTable(name)` succeeds and
returns exactly the documents of the written rows, in order, and those
documents decode back to a row sequence deep-equal to `rows`. -/
theorem write_read_round_trip (fs : FileSys) (name : String) (rows : List Row) :
    read_table (write_table fs name rows) name = .ok (rows.map encodeRow)
    ∧ (rows.map encodeRow).mapM decodeRow = some rows := by
  constructor
  · simp [read_table, write_table, encodeRows]
  · induction rows with
    | nil => rfl
    | cons r rows ih =>
      simp only [List.map_cons, List.mapM_cons, decodeRow_encodeRow, Option.pure_def,
        Option.bind_eq_bind, Option.some_bind]
      rw [show (rows.map encodeRow).mapM decodeRow = some rows from ih]
      rfl

/-! ### C7: createTable rolls the schema back on storage failure -/

/-- The schema store: table name → (declared columns as type-name
strings, optional primary-key column), insertion ordered. -/
abbrev SchemaStore := List (String × (List (String × String) × Option String))

/-- The valid type names of `SchemaManager.create_table_schema`. -/
def valid_type_names : List String := ["Int", "String", "Float", "Bool"]

/-- The data-type validation loop plus persist step of
`SchemaManager.create_table_schema`. -/
def add_schema (st : SchemaStore) (name : String) (columns : List (String × String))
    (pk : Option String) : Except DbError SchemaStore :=
  match columns.find? (fun c => ! valid_type_names.contains c.2) with
  | some c => .error (.badType c.1 c.2)
  | none => .ok (st ++ [(name, (columns, pk))])

/-- `SchemaManager.create_table_schema`: fails if the name exists, if
the primary key is not a declared column, or on an invalid type name;
otherwise persists the new entry. -/
def create_table_schema (st : SchemaStore) (name : String)
    (columns : List (String × String)) (pk : Option String) : Except DbError SchemaStore :=
  if (lookupStr st name).isSome then .error (.schemaExists name)
  else
    match pk with
    | some p =>
      if (lookupStr columns p).isNone then .error (.badPrimaryKey p)
      else add_schema st name columns pk
    | none => add_schema st name columns pk

/-- `SchemaManager.drop_table_schema`: fails `NotFound` when absent,
otherwise deletes the entry and persists. -/
def drop_table_schema (st : SchemaStore) (name : String) : Except DbError SchemaStore :=
  if (lookupStr st name).isSome then .ok (st.filter (fun p => p.1 ≠ name))
  else .error (.notFound name)

/-- `StorageEngine.create_table_file`: fails when the file exists,
otherwise creates it holding the empty row list. -/
def create_table_file (files : List (String × List Row)) (name : String) :
    Except DbError (List (String × List Row)) :=
  if (lookupStr files name).isSome then .error (.fileExists name)
  else .ok (files ++ [(name, [])])

/-- `self.indexes[table_name] = index`: replace, or add when absent. -/
def set_index (ixs : List (String × Idx)) (name : String) (idx : Idx) :
    List (String × Idx) :=
  if (lookupStr ixs name).isSome then
    ixs.map (fun p => if p.1 = name then (p.1, idx) else p)
  else ixs ++ [(name, idx)]

/-- Whole-system state for the table lifecycle: schema store, table
files, per-table in-memory indexes. -/
structure SysState where
  schemas : SchemaStore
  files : List (String × List Row)
  indexes : List (String × Idx)

/-- `ExecutionEngine.create_table`: persist the schema first, then
create the storage file and (when a primary key is declared) build the
empty index inside the `try`; on a failure there, drop the just-created
schema and re-raise the original error — if the compensating drop
itself fails, its own error propagates instead and the schema stays. -/
def create_table (s : SysState) (name : String) (columns : List (String × String))
    (pk : Option String) : Except DbError Unit × SysState :=
  match create_table_schema s.schemas name columns pk with
  | .error e => (.error e, s)
  | .ok schemas1 =>
    match create_table_file s.files name with
    | .error e =>
      match drop_table_schema schemas1 name with
      | .ok schemas2 => (.error e, { s with schemas := schemas2 })
      | .error e2 => (.error e2, { s with schemas := schemas1 })
    | .ok files1 =>
      match pk with
      | none => (.ok (), { s with schemas := schemas1, files := files1 })
      | some pkc =>
        match build_index [] pkc with
        | .error e =>
          match drop_table_schema schemas1 name with
          | .ok schemas2 => (.error e, { s with schemas := schemas2 })
          | .error e2 => (.error e2, { s with schemas := schemas1 })
        | .ok idx =>
          (.ok (), { schemas := schemas1, files := files1,
                     indexes := set_index s.indexes name idx })

/-- **C7.**  When the schema creation succeeds (fresh name, valid
column types, primary key declared among the columns) but the storage
file already exists, `createTable` drops the just-created schema and
re-raises the storage error: afterwards the schema store is exactly the
original one — in particular it has no entry for the name — and the
files are untouched. -/
theorem create_table_storage_rollback (s : SysState) (name : String)
    (columns : List (String × String)) (pk : Option String)
    (h0 : lookupStr s.schemas name = none)
    (h1 : ∀ c ∈ columns, valid_type_names.contains c.2 = true)
    (h2 : match pk with
          | some p => (lookupStr columns p).isSome = true
          | none => True)
    (h3 : (lookupStr s.files name).isSome = true) :
    ∃ s1 : SysState, create_table s name columns pk = (.error (.fileExists name), s1)
      ∧ s1.schemas = s.schemas ∧ lookupStr s1.schemas name = none
      ∧ s1.files = s.files := by
  have hadd : add_schema s.schemas name columns pk
      = .ok (s.schemas ++ [(name, (columns, pk))]) := by
    rw [add_schema, List.find?_eq_none.mpr (fun c hc => by
      have hm := h1 c hc
      simp at hm ⊢
      exact hm)]
  have hcs : create_table_schema s.schemas name columns pk
      = .ok (s.schemas ++ [(name, (columns, pk))]) := by
    cases pk with
    | none => simp [create_table_schema, h0, hadd]
    | some p =>
      have hp : (lookupStr columns p).isSome = true := h2
      simp [create_table_schema, h0, hadd, Option.isNone_iff_eq_none]
      intro hc
      rw [hc] at hp
      simp at hp
  have hcf : create_table_file s.files name = .error (.fileExists name) := by
    simp [create_table_file, h3]
  have hlook : lookupStr (s.schemas ++ [(name, (columns, pk))]) name
      = some (columns, pk) := by
    rw [lookupStr_append, h0]
    simp [lookupStr, optOr]
  have hfil : (s.schemas ++ [(name, (columns, pk))]).filter (fun p => p.1 ≠ name)
      = s.schemas := by
    rw [List.filter_append]
    have hall := (lookupStr_eq_none_iff s.schemas name).mp h0
    rw [List.filter_eq_self.mpr (fun p hp => by simp [hall p hp])]
    simp [lookupStr]
  have hds : drop_table_schema (s.schemas ++ [(name, (columns, pk))]) name
      = .ok s.schemas := by
    rw [drop_table_schema, if_pos (by rw [hlook]; rfl), hfil]
  refine ⟨{ s with schemas := s.schemas }, ?_, rfl, h0, rfl⟩
  simp [create_table, hcs, hcf, hds]

/-- Witness for C7: creating table `t` over `{"id": "Int"}` with key
`id` when `t.json` already exists fails with the storage error and
leaves the schema store empty. -/
theorem create_table_storage_rollback_witness :
    lookupStr (([] : SchemaStore)) "t" = none
    ∧ (∀ c ∈ [("id", "Int")], valid_type_names.contains c.2 = true)
    ∧ (lookupStr [("t", ([] : List Row))] "t").isSome = true
    ∧ (∃ s1 : SysState,
        create_table { schemas := [], files := [("t", [])], indexes := [] }
          "t" [("id", "Int")] (some "id") = (.error (.fileExists "t"), s1)
        ∧ s1.schemas = [] ∧ lookupStr s1.schemas "t" = none
        ∧ s1.files = [("t", [])]) := by
  refine ⟨by decide, by decide, by decide, ?_⟩
  exact create_table_storage_rollback
    { schemas := [], files := [("t", [])], indexes := [] }
    "t" [("id", "Int")] (some "id") (by decide) (by decide) (by decide) (by decide)

end RDBMS
